import Mathlib

set_option autoImplicit false

/-!
Shallow embedding of the `flutter-plus` Dart data-class generator
(`src/commands/data.command.ts` and its sibling revisions): the case
converters, the regex/line scanners that locate classes and fields, the
comment-directive interpreter, the per-field decode/encode expression
synthesis, and the per-run orchestration that turns a document into a list
of edit operations.  JavaScript regexes are embedded as deterministic
scanners over `List Char`; each definition's doc comment names the source
construct it mirrors.
-/

namespace FlutterPlus

/-- JavaScript `\w` character class: `[A-Za-z0-9_]`. -/
def isWordChar (c : Char) : Bool := c.isAlpha || c.isDigit || c = '_'

/-- JavaScript `\s` character class, restricted to its ASCII members
(space, tab, newline, carriage return, vertical tab, form feed). -/
def isJsSpace (c : Char) : Bool :=
  c = ' ' || c = '\t' || c = '\n' || c = '\r' || c = '\x0b' || c = '\x0c'

/-- JavaScript truthiness of an optional string: `undefined` and the empty
string are falsy, everything else is truthy. -/
def truthy : Option String → Bool
  | none => false
  | some s => !s.isEmpty



/-! ## Case converters (`convertCase` in every revision) -/

/-- The five naming styles offered by the quick pick. -/
inductive NamingStyle where
  | camelCase
  | snake_case
  | pascalCase
  | kebabCase
  | original
deriving DecidableEq, Repr

/-- One pass of `str.replace(/_./g, s => s.charAt(1).toUpperCase())`:
each non-overlapping occurrence of `_` followed by a non-newline character
is replaced by that character uppercased (`.` does not match `\n`). -/
def camelRep : List Char → List Char
  | [] => []
  | [a] => [a]
  | a :: c :: rest2 =>
    if a = '_' then
      if c = '\n' then a :: camelRep (c :: rest2) else c.toUpper :: camelRep rest2
    else a :: camelRep (c :: rest2)

/-- One pass of `str.replace(/([a-z])([A-Z])/g, "$1_$2")` with a chosen
separator: a separator is inserted at each non-overlapping
lowercase-then-uppercase boundary. -/
def snakeRep (sep : Char) : List Char → List Char
  | [] => []
  | [a] => [a]
  | a :: b :: rest2 =>
    if a.isLower && b.isUpper then a :: sep :: b :: snakeRep sep rest2
    else a :: snakeRep sep (b :: rest2)

/-- The `_\w` alternative of `str.replace(/(^\w|_\w)/g, ...)`: each
non-overlapping `_x` (with `x` a word character) is replaced by `x`
uppercased (the match text with its first `_` removed, uppercased). -/
def pascalTail : List Char → List Char
  | [] => []
  | [a] => [a]
  | a :: c :: rest2 =>
    if a = '_' then
      if isWordChar c then c.toUpper :: pascalTail rest2
      else a :: pascalTail (c :: rest2)
    else a :: pascalTail (c :: rest2)

/-- `str.replace(/(^\w|_\w)/g, s => s.replace("_", "").toUpperCase())`.
At position 0 the `^\w` alternative wins when the first character is a word
character: that single character is uppercased (or dropped when it is `_`,
since removing the `_` leaves the empty string); the rest of the string is
processed by the `_\w` alternative. -/
def pascalConvList : List Char → List Char
  | [] => []
  | c :: rest =>
    if isWordChar c then
      if c = '_' then pascalTail rest
      else c.toUpper :: pascalTail rest
    else c :: pascalTail rest

/-- String wrapper of `pascalConvList`. -/
def pascalConv (s : String) : String := String.mk (pascalConvList s.data)

/-- The `convertCase` table: selects, per naming style, the pure
string-to-string converter applied to every field name of the run. -/
def convertCase : NamingStyle → String → String
  | .camelCase, s => String.mk (camelRep s.data)
  | .snake_case, s => String.mk ((snakeRep '_' s.data).map Char.toLower)
  | .pascalCase, s => pascalConv s
  | .kebabCase, s => String.mk ((snakeRep '-' s.data).map Char.toLower)
  | .original, s => s

/-! ## Generic scanning helpers for the embedded regexes -/

/-- Matches a literal character sequence at the head of the input,
returning the remainder on success. -/
def dropLit : List Char → List Char → Option (List Char)
  | [], l => some l
  | _ :: _, [] => none
  | p :: ps, c :: cs => if p = c then dropLit ps cs else none

/-- Leftmost-match search: tries `step` at every start position of the
input, left to right, returning the first success (the behavior of a
JavaScript `String.match` / one-shot `exec`). -/
def scanFirstAux {A : Type} (step : List Char → Option A) : List Char → Option A
  | [] => none
  | c :: rest =>
    match step (c :: rest) with
    | some a => some a
    | none => scanFirstAux step rest


/-- Splits at the first occurrence of `pat` (non-empty in every use):
`some (pre, suf)` with the input equal to `pre ++ pat ++ suf` and `pat`
not occurring in `pre`, or `none` when `pat` does not occur. -/
def breakOn (pat : List Char) : List Char → Option (List Char × List Char)
  | [] => none
  | c :: rest =>
    match dropLit pat (c :: rest) with
    | some r => some ([], r)
    | none =>
      match breakOn pat rest with
      | some (pre, suf) => some (c :: pre, suf)
      | none => none

/-- JavaScript `s.replace(pat, rep)` with a *string* pattern: replaces only
the first occurrence of `pat` (assumed non-empty here), or returns `s`
unchanged when `pat` does not occur. -/
def replaceFirst (s pat rep : String) : String :=
  match breakOn pat.data s.data with
  | none => s
  | some (pre, suf) => String.mk pre ++ rep ++ String.mk suf

/-- JavaScript `s.includes(pat)` for a non-empty `pat`. -/
def hasSubstr (s pat : String) : Bool :=
  (breakOn pat.data s.data).isSome

/-- Fuel-driven splitting on every occurrence of `pat`; the fuel
`l.length` is always sufficient for a non-empty `pat`. -/
def splitOnGo (pat : List Char) : Nat → List Char → List (List Char)
  | 0, l => [l]
  | fuel + 1, l =>
    match breakOn pat l with
    | none => [l]
    | some (pre, suf) => pre :: splitOnGo pat fuel suf

/-- JavaScript `s.split(pat)` for a non-empty `pat`. -/
def splitOnStr (s pat : String) : List String :=
  (splitOnGo pat.data s.data.length s.data).map String.mk

/-- JavaScript `s.trim()` (whitespace stripped from both ends). -/
def jsTrim (s : String) : String :=
  String.mk (((s.data.dropWhile isJsSpace).reverse.dropWhile isJsSpace).reverse)

/-- JavaScript `s.startsWith(pat)`. -/
def startsWithStr (s pat : String) : Bool := (dropLit pat.data s.data).isSome

/-- JavaScript `s.endsWith(pat)`. -/
def endsWithStr (s pat : String) : Bool :=
  (dropLit pat.data.reverse s.data.reverse).isSome

/-! ## Data model -/

/-- The optional `customParsing` record built from a `Parsing:` directive:
`fromJson`/`toJson` expression templates (both set together, or neither). -/
structure CustomParsing where
  fromJson : Option String
  toJson : Option String
deriving DecidableEq, Repr

/-- One resolved field of a located class (the element type of the
`fields` arrays in the generator). -/
structure Field where
  type : String
  name : String
  snakeName : String
  nullable : Bool
  isEnum : Bool
  isClass : Bool
  customParsing : CustomParsing
deriving DecidableEq, Repr

/-- The `dartBuiltInTypes` set. -/
def dartBuiltInTypes : List String :=
  ["int", "double", "String", "bool", "num", "List", "Map", "Set", "dynamic"]

/-- A located class: match start offset, class name, brace-delimited body
text, and the length of the full regex match (the `classRegex` capture
structure of the multi-class revisions). -/
structure ClassMatch where
  index : Nat
  name : String
  body : String
  len : Nat
deriving DecidableEq, Repr

/-- One source edit: replace the half-open offset range
`[start, stop)` of the document with `newText`. -/
structure EditOp where
  start : Nat
  stop : Nat
  newText : String
deriving DecidableEq, Repr

/-- The externally visible outcome of one generator run: the error
messages surfaced to the user, in order, and the edit operations to apply
to the document in one batch. -/
structure RunOutcome where
  errors : List String
  edits : List EditOp
deriving DecidableEq, Repr

/-! ## Class locator -/

/-- One attempt of `classRegex = /class\s+(\w+)\s*{([\s\S]*?)}/g` at a fixed
start position: literal `class`, at least one whitespace, a maximal word
run (the name), optional whitespace, `{`, then the lazy body runs to the
first `}`.  Returns name, body, and total match length. -/
def matchClassAt (l : List Char) : Option (String × String × Nat) :=
  match dropLit "class".data l with
  | none => none
  | some r1 =>
    let ws1 := r1.takeWhile isJsSpace
    let r2 := r1.dropWhile isJsSpace
    if ws1.isEmpty then none else
    let nm := r2.takeWhile isWordChar
    let r3 := r2.dropWhile isWordChar
    if nm.isEmpty then none else
    let ws2 := r3.takeWhile isJsSpace
    let r4 := r3.dropWhile isJsSpace
    match r4 with
    | c :: r5 =>
      if c = '\x7b' then
        let body := r5.takeWhile (· ≠ '\x7d')
        match r5.dropWhile (· ≠ '\x7d') with
        | d :: _ =>
          if d = '\x7d' then
            some (String.mk nm, String.mk body,
              5 + ws1.length + nm.length + ws2.length + 2 + body.length)
          else none
        | [] => none
      else none
    | [] => none

/-- The `while ((classMatch = classRegex.exec(classCode)) !== null)` loop:
repeated leftmost matching of `classRegex`, resuming after each match
(non-overlapping), recording each match's start offset.  The fuel (at
least the input length everywhere it is used) only serves structural
termination: every step strictly shortens the input. -/
def scanClassesGo : Nat → List Char → Nat → List ClassMatch
  | 0, _, _ => []
  | _ + 1, [], _ => []
  | fuel + 1, c :: rest, i =>
    match matchClassAt (c :: rest) with
    | some (nm, body, k) =>
      ⟨i, nm, body, k⟩ :: scanClassesGo fuel (rest.drop (k - 1)) (i + k)
    | none => scanClassesGo fuel rest (i + 1)

/-- All class matches of a document, in order (multi-class Mode B). -/
def scanClasses (doc : String) : List ClassMatch :=
  scanClassesGo doc.data.length doc.data 0

/-- `classCode.match(/class\s+(\w+)/)` of the single-class revisions:
the first `class` keyword occurrence followed by whitespace and a word
run gives the class name. -/
def findClassName (doc : String) : Option String :=
  scanFirstAux (fun l =>
    match dropLit "class".data l with
    | none => none
    | some r1 =>
      let ws := r1.takeWhile isJsSpace
      let r2 := r1.dropWhile isJsSpace
      if ws.isEmpty then none else
      let nm := r2.takeWhile isWordChar
      if nm.isEmpty then none else some (String.mk nm)) doc.data

/-! ## Field matchers -/

/-- Core of the field regex `(\w+\??)\s+(\w+);` at a fixed position:
maximal word run plus optional `?` (the declared type), whitespace, a
second word run (the name), then a literal `;`.  Returns type, name and
consumed length. -/
def typeNameSemi (l : List Char) : Option (String × String × Nat) :=
  let w1 := l.takeWhile isWordChar
  let r1 := l.dropWhile isWordChar
  if w1.isEmpty then none else
  let (q, r2) : Bool × List Char :=
    match r1 with
    | '?' :: r => (true, r)
    | r => (false, r)
  let sp := r2.takeWhile isJsSpace
  let r3 := r2.dropWhile isJsSpace
  if sp.isEmpty then none else
  let w2 := r3.takeWhile isWordChar
  let r4 := r3.dropWhile isWordChar
  if w2.isEmpty then none else
  match r4 with
  | ';' :: _ =>
    some (String.mk (w1 ++ if q then ['?'] else []), String.mk w2,
      w1.length + (if q then 1 else 0) + sp.length + w2.length + 1)
  | _ => none

/-- The iteration core of `matchAll` for the permissive field regex:
fuel-driven for structural termination (every step strictly shortens the
input, and the fuel is the input length at the top-level call). -/
def scanFieldsGo : Nat → List Char → List (String × String)
  | 0, _ => []
  | _ + 1, [] => []
  | fuel + 1, c :: rest =>
    match typeNameSemi (c :: rest) with
    | some (ty, nm, k) => (ty, nm) :: scanFieldsGo fuel (rest.drop (k - 1))
    | none => scanFieldsGo fuel rest

/-- `[...classCode.matchAll(/(\w+\??)\s+(\w+);/g)]`: all non-overlapping
field matches of the permissive field regex, left to right. -/
def scanFieldMatches (classCode : String) : List (String × String) :=
  scanFieldsGo classCode.data.length classCode.data

/-- The stricter per-line field pattern
`/^final\s+(\w+\??)\s+(\w+);/` of the line-scanning revision, applied to
an already trimmed line. -/
def lineFieldMatch (t : String) : Option (String × String) :=
  match dropLit "final".data t.data with
  | none => none
  | some r =>
    let sp := r.takeWhile isJsSpace
    let r1 := r.dropWhile isJsSpace
    if sp.isEmpty then none
    else (typeNameSemi r1).map (fun x => (x.1, x.2.1))

/-! ## Metadata interpreter (comment directives) -/

/-- The tail of the trailing-comment regex `` `${name};\s*//\s*(.+)` ``
after the literal `name;` part: greedy whitespace (which may cross
newlines), the literal `//`, more greedy whitespace, then the `(.+)`
capture.  `.` does not match `\n`, so with a non-whitespace character
after the second whitespace run the capture is the rest of that line;
when the input ends in whitespace the engine backtracks the greedy `\s*`
minimally, making the capture the last non-newline whitespace character,
if any. -/
def commentCapture (l : List Char) : Option (List Char) :=
  let r1 := l.dropWhile isJsSpace
  match dropLit ['\x2f', '\x2f'] r1 with
  | none => none
  | some r2 =>
    let w2 := r2.takeWhile isJsSpace
    let r3 := r2.dropWhile isJsSpace
    match r3 with
    | _ :: _ => some (r3.takeWhile (· ≠ '\n'))
    | [] =>
      match (w2.reverse.dropWhile (· = '\n')).head? with
      | some c => some [c]
      | none => none

/-- `new RegExp(`${name};\s*//\s*(.+)`, "g")` executed once on the class
code: the first position where the field name, `;`, optional whitespace,
`//`, optional whitespace and a non-empty single-line capture match; the
returned string is capture group 1. -/
def findCommentAfter (name classCode : String) : Option String :=
  scanFirstAux (fun l =>
    match dropLit (name.data ++ [';']) l with
    | none => none
    | some r => (commentCapture r).map String.mk) classCode.data

/-- The body of `/Parsing:\s*(.*),\s*(.*)/` after the literal `Parsing:`:
greedy whitespace, then group 1 runs to the *last* comma of the line on
which the first non-whitespace character sits (greedy `(.*)` with a
mandatory `,` after it, `.` not matching `\n`), then greedy whitespace
(which may cross newlines), then group 2 runs to the end of its line
(possibly empty). -/
def parsingMatchCore (r : List Char) : Option (String × String) :=
  let r1 := r.dropWhile isJsSpace
  let line1 := r1.takeWhile (· ≠ '\n')
  let lastSeg := line1.reverse.takeWhile (· ≠ ',')
  if lastSeg.length = line1.length then none
  else
    let g1 := line1.take (line1.length - lastSeg.length - 1)
    let after := r1.drop (line1.length - lastSeg.length)
    let g2 := (after.dropWhile isJsSpace).takeWhile (· ≠ '\n')
    some (String.mk g1, String.mk g2)

/-- `s.match(/Parsing:\s*(.*),\s*(.*)/)`: leftmost occurrence of the
literal `Parsing:` whose remainder matches the directive tail; returns the
two capture groups. -/
def findParsingMatch (s : String) : Option (String × String) :=
  scanFirstAux (fun l =>
    match dropLit "Parsing:".data l with
    | none => none
    | some r => parsingMatchCore r) s.data

/-- The comment-scanning loop of `determineFieldType`: the trailing
comment (if any) is split into trimmed lines; a line starting with
`Type: enum` sets the enum flag, otherwise a line starting with
`Parsing:` sets both custom parsing expressions from the directive
regex's capture groups, trimmed. -/
def directivesOf (name classCode : String) : Bool × CustomParsing :=
  match findCommentAfter name classCode with
  | none => (false, ⟨none, none⟩)
  | some cap =>
    ((splitOnStr cap "\n").map jsTrim).foldl
      (fun acc line =>
        if startsWithStr line "Type: enum" then (true, acc.2)
        else if startsWithStr line "Parsing:" then
          match findParsingMatch line with
          | some (a, b) => (acc.1, ⟨some (jsTrim a), some (jsTrim b)⟩)
          | none => acc
        else acc)
      (false, ⟨none, none⟩)

/-- `determineFieldType` of `data.command.ts` (and of the first revision in
`part_001`): the `?`-stripped type decides built-in-ness; a built-in type
returns both flags false (keeping any custom parsing), otherwise the enum
directive decides between enum and nested class. -/
def determineFieldType (type name classCode : String) :
    Bool × Bool × CustomParsing :=
  let cleanType := replaceFirst type "?" ""
  let dir := directivesOf name classCode
  if dartBuiltInTypes.contains cleanType then (false, false, dir.2)
  else (dir.1, !dir.1, dir.2)

/-- Field list of the single-class revision (`data.command.ts`): every
permissive field match over the whole class code, decorated by
`determineFieldType`, the converted name and the `?` type marker. -/
def extractFieldsSingle (classCode : String) (style : NamingStyle) :
    List Field :=
  (scanFieldMatches classCode).map (fun tn =>
    let d := determineFieldType tn.1 tn.2 classCode
    { type := tn.1, name := tn.2, snakeName := convertCase style tn.2,
      nullable := endsWithStr tn.1 "?", isEnum := d.1, isClass := d.2.1,
      customParsing := d.2.2 })

/-! ## Line-scanning field extractor (`part_000`) -/

/-- `lines[j].trim().replace(/^\/\//, "").trim()`: strip surrounding
whitespace, remove one leading `//` if present, strip again. -/
def stripCommentMarker (ln : String) : String :=
  let t := jsTrim ln
  jsTrim (if startsWithStr t "\x2f\x2f" then String.mk (t.data.drop 2) else t)

/-- The upward walk collecting the comment block directly above line `i`:
the maximal run of lines ending at `i - 1` whose trimmed text starts with
`//`, each stripped of its marker and followed by a newline, concatenated
in source order. -/
def commentBlockAbove (lines : List String) (i : Nat) : String :=
  let above := ((lines.take i).reverse.takeWhile
    (fun ln => startsWithStr (jsTrim ln) "\x2f\x2f")).reverse
  String.join (above.map (fun ln => stripCommentMarker ln ++ "\n"))

/-- One iteration of the line loop of `part_000`: a trimmed line matching
the strict field pattern yields a field whose enum flag comes from a
`Type: enum` substring of the comment block above it, whose class flag is
the non-built-in default unless the enum directive overrides it, and whose
custom parsing comes from a `Parsing:` match over the comment block. -/
def fieldFromLine (lines : List String) (style : NamingStyle)
    (p : Nat × String) : Option Field :=
  match lineFieldMatch (jsTrim p.2) with
  | none => none
  | some (ty, nm) =>
    let cb := commentBlockAbove lines p.1
    let en := hasSubstr cb "Type: enum"
    let cl := if en then false
      else !(dartBuiltInTypes.contains (replaceFirst ty "?" ""))
    let cp : CustomParsing :=
      match findParsingMatch cb with
      | some (a, b) => ⟨some (jsTrim a), some (jsTrim b)⟩
      | none => ⟨none, none⟩
    some { type := ty, name := nm, snakeName := convertCase style nm,
           nullable := endsWithStr ty "?", isEnum := en, isClass := cl,
           customParsing := cp }

/-- Field list of the line-scanning multi-class revision (`part_000`):
the class body is split into physical lines and each line is tried against
the strict `final`-prefixed field pattern, with comment association. -/
def extractFieldsLS (body : String) (style : NamingStyle) : List Field :=
  let lines := splitOnStr body "\n"
  lines.enum.filterMap (fieldFromLine lines style)

/-! ## Code synthesizer: per-field decode/encode expressions -/

/-- The enum / nested-class / plain fall-through of the `fromMap` entry
generator of `part_000` (with `const nonNullableType = type.replace("?", "")`
in the nested-class branch). -/
def fromMapFieldRest (f : Field) : String :=
  if f.isEnum then
    f.name ++ ": " ++ f.name ++ "FromString(map[\x27" ++ f.snakeName ++ "\x27]),"
  else if f.isClass then
    f.name ++ ": map[\x27" ++ f.snakeName ++ "\x27] != null ? " ++
      replaceFirst f.type "?" "" ++ ".fromMap(map[\x27" ++ f.snakeName ++
      "\x27]) : null,"
  else
    f.name ++ ": map[\x27" ++ f.snakeName ++ "\x27],"

/-- One `fromMap` entry of `part_000`: `if (customParsing.fromJson)` — a
truthy (set and non-empty) custom expression wins, with the literal token
`value` replaced (first occurrence only) by the external map access;
otherwise enum lookup, nested-class `fromMap` guarded by a null check, or
plain map lookup, in that order. -/
def fromMapField (f : Field) : String :=
  match f.customParsing.fromJson with
  | some e =>
    if e.isEmpty then fromMapFieldRest f
    else f.name ++ ": " ++
      replaceFirst e "value" ("map[\x27" ++ f.snakeName ++ "\x27]") ++ ","
  | none => fromMapFieldRest f

/-- The fall-through of the `fromMap` entry generator of `data.command.ts`
(and of the first revision in `part_001`), whose nested-class branch
interpolates the *declared* type without stripping the `?` marker. -/
def fromMapFieldTsRest (f : Field) : String :=
  if f.isEnum then
    f.name ++ ": " ++ f.name ++ "FromString(map[\x27" ++ f.snakeName ++ "\x27]),"
  else if f.isClass then
    f.name ++ ": map[\x27" ++ f.snakeName ++ "\x27] != null ? " ++
      f.type ++ ".fromMap(map[\x27" ++ f.snakeName ++ "\x27]) : null,"
  else
    f.name ++ ": map[\x27" ++ f.snakeName ++ "\x27],"

/-- One `fromMap` entry of `data.command.ts`: same priority chain as
`fromMapField`, with the unstripped type in the nested-class branch. -/
def fromMapFieldTs (f : Field) : String :=
  match f.customParsing.fromJson with
  | some e =>
    if e.isEmpty then fromMapFieldTsRest f
    else f.name ++ ": " ++
      replaceFirst e "value" ("map[\x27" ++ f.snakeName ++ "\x27]") ++ ","
  | none => fromMapFieldTsRest f

/-- The enum / nested-class / plain fall-through of the `toMap` entry
generator (identical in `data.command.ts` and `part_000`). -/
def toMapFieldRest (f : Field) : String :=
  if f.isEnum then
    "\x27" ++ f.snakeName ++ "\x27: " ++ f.name ++ "ToString(" ++ f.name ++ "),"
  else if f.isClass then
    "\x27" ++ f.snakeName ++ "\x27: " ++ f.name ++ "?.toMap(),"
  else
    "\x27" ++ f.snakeName ++ "\x27: " ++ f.name ++ ","

/-- One `toMap` entry: `if (customParsing.toJson)` — a truthy custom
expression wins, with `value` replaced (first occurrence only) by the
field's own name; otherwise enum-to-string, null-safe `.toMap()`, or the
plain field reference, in that order. -/
def toMapField (f : Field) : String :=
  match f.customParsing.toJson with
  | some e =>
    if e.isEmpty then toMapFieldRest f
    else "\x27" ++ f.snakeName ++ "\x27: " ++ replaceFirst e "value" f.name ++ ","
  | none => toMapFieldRest f

/-! ## Code synthesizer: class templates -/

/-- `generateFieldDeclarations`. -/
def fieldDecls (fields : List Field) : String :=
  String.intercalate "\n  "
    (fields.map (fun f => "final " ++ f.type ++ " " ++ f.name ++ ";"))

/-- `generateConstructor` of `part_000`. -/
def ctorBody (dto : String) (fields : List Field) : String :=
  "const " ++ dto ++ "(\x7b\n    " ++
  String.intercalate "\n    "
    (fields.map (fun f =>
      (if f.nullable then "" else "required ") ++ "this." ++ f.name ++ ",")) ++
  "\n  \x7d);"

/-- `generateFactoryMethods` of `part_000`. -/
def factoryMethods (dto : String) (fields : List Field) : String :=
  "factory " ++ dto ++ ".fromMap(Map<String, dynamic> map) => " ++ dto ++
  "(\n    " ++ String.intercalate "\n    " (fields.map fromMapField) ++
  "\n  );\n\n  factory " ++ dto ++ ".fromJson(String source) =>\n      " ++
  dto ++ ".fromMap(json.decode(source));"

/-- `generateToMapAndJson` (same text in `part_000` and, modulo
surrounding newlines, `data.command.ts`). -/
def toMapAndJson (fields : List Field) : String :=
  "Map<String, dynamic> toMap() => \x7b\n    " ++
  String.intercalate "\n    " (fields.map toMapField) ++
  "\n  \x7d;\n\n  String toJson() => json.encode(toMap());"

/-- `generateToString` of `part_000`. -/
def toStringMethod (dto : String) (fields : List Field) : String :=
  "@override\n  String toString() => \x27" ++ dto ++ "(" ++
  String.intercalate ", " (fields.map (fun f => f.name ++ ": $" ++ f.name)) ++
  ")\x27;"

/-- The `updatedClass` template of `part_000`. -/
def updatedClassText (dto : String) (fields : List Field) : String :=
  "class " ++ dto ++ " \x7b\n  " ++ fieldDecls fields ++ "\n  \n  " ++
  ctorBody dto fields ++ "\n  \n  " ++ factoryMethods dto fields ++
  "\n  \n  " ++ toMapAndJson fields ++ "\n  \n  " ++
  toStringMethod dto fields ++ "\n\x7d"

/-- `generateConstructor` of `data.command.ts` (leading/trailing newlines
belong to its template literal). -/
def ctorBodySingle (dto : String) (fields : List Field) : String :=
  "\n  const " ++ dto ++ "(\x7b\n    " ++
  String.intercalate "\n    "
    (fields.map (fun f =>
      (if f.nullable then "" else "required ") ++ "this." ++ f.name ++ ",")) ++
  "\n  \x7d);\n  "

/-- `generateFactoryMethods` of `data.command.ts`. -/
def factoryMethodsSingle (dto : String) (fields : List Field) : String :=
  "factory " ++ dto ++ ".fromMap(Map<String, dynamic> map) => " ++ dto ++
  "(\n    " ++ String.intercalate "\n    " (fields.map fromMapFieldTs) ++
  "\n      );\n\n  factory " ++ dto ++ ".fromJson(String source) =>\n      " ++
  dto ++ ".fromMap(json.decode(source));\n  "

/-- `generateToString` of `data.command.ts`. -/
def toStringSingle (dto : String) (fields : List Field) : String :=
  "\n  @override\n  String toString() => \x27" ++ dto ++ "(" ++
  String.intercalate ", " (fields.map (fun f => f.name ++ ": $" ++ f.name)) ++
  ")\x27;"

/-- The `classTemplate` of `data.command.ts` (imports, `@immutable`, class
body). -/
def classTemplateSingle (dto : String) (fields : List Field) : String :=
  "\nimport \x27dart:convert\x27;\nimport \x27package:meta/meta.dart\x27;\n\n@immutable\nclass " ++
  dto ++ " \x7b\n  " ++ fieldDecls fields ++ "\n  " ++
  ctorBodySingle dto fields ++ "\n  " ++ factoryMethodsSingle dto fields ++
  "\n  " ++ toMapAndJson fields ++ "\n  " ++ toStringSingle dto fields ++
  "\n\x7d\n\n"

/-! ## Orchestrators -/

/-- Applies a batch of non-overlapping edits (sorted by position, as
produced by the generators) to a document in one pass; `pos` is the
document offset the remaining input starts at. -/
def applyGo : List Char → Nat → List EditOp → List Char
  | l, _, [] => l
  | l, pos, e :: rest =>
    l.take (e.start - pos) ++ e.newText.data ++
      applyGo (l.drop (e.stop - pos)) e.stop rest

/-- One atomic replacement pass over the document. -/
def applyEdits (doc : String) : List EditOp → String
  | [] => doc
  | es => String.mk (applyGo doc.data 0 es)

/-- One iteration of the per-class loop of `part_000`: a class with no
recognized field yields its per-class error message and is skipped;
otherwise it yields one edit covering the class match, whose text is the
trimmed generated class. -/
def processClass (suffix : String) (style : NamingStyle) (u : ClassMatch) :
    Sum String EditOp :=
  let fields := extractFieldsLS u.body style
  if fields.isEmpty then
    Sum.inl ("No valid fields found in class " ++ u.name ++ ".")
  else
    Sum.inr ⟨u.index, u.index + u.len,
      jsTrim (updatedClassText (u.name ++ suffix) fields)⟩

/-- The multi-class orchestrator (`part_000`), as a function of the
document text and the two prompt results.  A dismissed suffix prompt
yields the empty suffix (`?.trim() ?? ""`); a dismissed naming-style pick
aborts with an error; otherwise every located class is processed in order
and, when no edit was produced at all, a final error is reported and
nothing is applied. -/
def runMulti (doc : String) (suffixPrompt : Option String)
    (stylePrompt : Option NamingStyle) : RunOutcome :=
  let suffix := (suffixPrompt.map jsTrim).getD ""
  match stylePrompt with
  | none => ⟨["No naming style selected."], []⟩
  | some style =>
    let results := (scanClasses doc).map (processClass suffix style)
    let errs := results.filterMap
      (fun r => match r with | .inl e => some e | .inr _ => none)
    let eds := results.filterMap
      (fun r => match r with | .inr e => some e | .inl _ => none)
    if eds.isEmpty then ⟨errs ++ ["No Dart class found to update."], []⟩
    else ⟨errs, eds⟩

/-- The single-class orchestrator (`data.command.ts`), as a function of
the document text and the two prompt results: dismissed suffix prompt →
empty suffix; dismissed style pick → abort; no `class` match → abort; no
field match → abort; otherwise one edit replacing the whole document with
the trimmed class template. -/
def runSingle (doc : String) (suffixPrompt : Option String)
    (stylePrompt : Option NamingStyle) : RunOutcome :=
  let suffix := (suffixPrompt.map jsTrim).getD ""
  match stylePrompt with
  | none => ⟨["No naming style selected."], []⟩
  | some style =>
    match findClassName doc with
    | none => ⟨["No valid Dart class found."], []⟩
    | some className =>
      let fields := extractFieldsSingle doc style
      if fields.isEmpty then ⟨["No valid fields found in class."], []⟩
      else ⟨[], [⟨0, doc.length,
        jsTrim (classTemplateSingle (className ++ suffix) fields)⟩]⟩

/-! ## The constructor-driven revision (second half of `part_001`) -/

/-- The field record of the constructor-driven revision (no directive
support). -/
structure Field2 where
  type : String
  name : String
  snakeName : String
  nullable : Bool
deriving DecidableEq, Repr

/-- Field list of the constructor-driven revision: the permissive field
regex over the whole class code, nullability from the `?` type marker. -/
def extractFields2 (classCode : String) (style : NamingStyle) : List Field2 :=
  (scanFieldMatches classCode).map (fun tn =>
    { type := tn.1, name := tn.2, snakeName := convertCase style tn.2,
      nullable := endsWithStr tn.1 "?" })

/-- `classCode.match(new RegExp(`\b${className}\s*\(([^)]*)\)`, "s"))`.
In a JavaScript *template literal* `\b` is the backspace character U+0008
and `\s`, `\(`, `\)` lose their backslashes, so the string handed to
`new RegExp` is `\x08<className>s*(([^)]*))`: as a regex it demands a
literal backspace, the class name, a run of `s`, and then captures a
greedy run of non-`)` characters (the parentheses having become plain
regex groups).  The capture is group 1. -/
def ctorParamStep (className : String) (l : List Char) : Option String :=
  match l with
  | [] => none
  | c :: r =>
    if c = '\x08' then
      match dropLit className.data r with
      | none => none
      | some r1 =>
        some (String.mk ((r1.dropWhile (· = 's')).takeWhile (· ≠ ')')))
    else none

def findConstructorParams (className classCode : String) : Option String :=
  scanFirstAux (ctorParamStep className) classCode.data

/-- `new RegExp(`(required\s+)?this.${field.name}`).test(constructorParams)`.
Again a template literal: `\s` is the letter `s`, so the pattern is
`(requireds+)?this.<name>` — the parenthesized prefix (literal `requireds`,
`ss`, ...) is optional and therefore irrelevant to matchability, which
reduces to: somewhere in the parameter text, literal `this`, any
non-newline character (the unescaped `.`), then the field name. -/
def testThisField (name params : String) : Bool :=
  (scanFirstAux (fun l =>
    match dropLit "this".data l with
    | none => none
    | some (c :: r) =>
      if c = '\n' then none
      else (dropLit name.data r).map (fun _ => ())
    | some [] => none) params.data).isSome

/-- The nullability-resolution step of the constructor-driven revision:
when the (trimmed) constructor-parameter capture is truthy, every field's
nullability is replaced by the negated `this.<name>` test; otherwise the
`?`-marker reading stands. -/
def resolveFields2 (className classCode : String) (style : NamingStyle) :
    List Field2 :=
  let fields := extractFields2 classCode style
  match (findConstructorParams className classCode).map jsTrim with
  | some params =>
    if params.isEmpty then fields
    else fields.map (fun f => { f with nullable := !(testThisField f.name params) })
  | none => fields

/-! ## Concrete example inputs used by the verification -/

/-- A field whose custom parsing templates mention `value` twice. -/
def fieldCustomEx : Field :=
  ⟨"int", "x", "x", false, false, false,
   ⟨some "f(value, value)", some "g(value, value)"⟩⟩

/-- An enum-flagged field. -/
def fieldEnumEx : Field :=
  ⟨"Count", "count", "count", false, true, false, ⟨none, none⟩⟩

/-- A nested-class field with nullable declared type. -/
def fieldClassEx : Field :=
  ⟨"Count?", "count", "count", true, false, true, ⟨none, none⟩⟩

/-- A plain built-in-typed field. -/
def fieldPlainEx : Field :=
  ⟨"int", "x", "x", false, false, false, ⟨none, none⟩⟩

/-- A class whose single field carries a trailing `Type: enum` comment. -/
def docEnumEx : String :=
  "class User \x7b\n  final Count count; \x2f\x2f Type: enum\n\x7d"

/-- A class declaring a nullable-typed field that its constructor marks
`required`. -/
def docCtorEx : String :=
  "class User \x7b\n  final String? name;\n  const User(\x7brequired this.name\x7d);\n\x7d"

/-- A two-class document: `A` with one recognized field, `B` with none
(its field line lacks the `final` prefix the line scan requires). -/
def docTwoClassEx : String :=
  "class A \x7b\n  final int x;\n\x7d\nclass B \x7b\n  int y;\n\x7d"

/-- A single-class document with one recognized field. -/
def docOneClassEx : String := "class A \x7b\n  final int x;\n\x7d"

/-- A document whose class body contains an inner opening brace before
the first closing brace. -/
def docNestedBraceEx : String := "class A \x7b int \x7b \x7d"

/-- A line-scan class body with an enum directive above a built-in-typed
field. -/
def bodyEnumIntEx : String := "\n  \x2f\x2f Type: enum\n  final int count;\n"

/-! ## Helper lemmas -/

theorem string_mk_data (s : String) : String.mk s.data = s := by
  cases s
  rfl

theorem fromMapField_of_not_truthy (f : Field)
    (h : truthy f.customParsing.fromJson = false) :
    fromMapField f = fromMapFieldRest f := by
  cases hj : f.customParsing.fromJson with
  | none => simp [fromMapField, hj]
  | some e =>
    rw [hj] at h
    simp only [truthy, Bool.not_eq_false'] at h
    simp [fromMapField, hj, h]

theorem fromMapFieldTs_of_not_truthy (f : Field)
    (h : truthy f.customParsing.fromJson = false) :
    fromMapFieldTs f = fromMapFieldTsRest f := by
  cases hj : f.customParsing.fromJson with
  | none => simp [fromMapFieldTs, hj]
  | some e =>
    rw [hj] at h
    simp only [truthy, Bool.not_eq_false'] at h
    simp [fromMapFieldTs, hj, h]

theorem toMapField_of_not_truthy (f : Field)
    (h : truthy f.customParsing.toJson = false) :
    toMapField f = toMapFieldRest f := by
  cases hj : f.customParsing.toJson with
  | none => simp [toMapField, hj]
  | some e =>
    rw [hj] at h
    simp only [truthy, Bool.not_eq_false'] at h
    simp [toMapField, hj, h]

theorem isEmpty_false_of_ne (e : String) (hne : e ≠ "") :
    e.isEmpty = false := by
  cases h : e.isEmpty
  · rfl
  · exact absurd ((String.isEmpty_iff e).mp h) hne

theorem fromMapField_of_custom (f : Field) (e : String)
    (hj : f.customParsing.fromJson = some e) (hne : e ≠ "") :
    fromMapField f = f.name ++ ": " ++
      replaceFirst e "value" ("map[\x27" ++ f.snakeName ++ "\x27]") ++ "," := by
  simp [fromMapField, hj, isEmpty_false_of_ne e hne]

theorem fromMapFieldTs_of_custom (f : Field) (e : String)
    (hj : f.customParsing.fromJson = some e) (hne : e ≠ "") :
    fromMapFieldTs f = f.name ++ ": " ++
      replaceFirst e "value" ("map[\x27" ++ f.snakeName ++ "\x27]") ++ "," := by
  simp [fromMapFieldTs, hj, isEmpty_false_of_ne e hne]

theorem toMapField_of_custom (f : Field) (e : String)
    (hj : f.customParsing.toJson = some e) (hne : e ≠ "") :
    toMapField f = "\x27" ++ f.snakeName ++ "\x27: " ++
      replaceFirst e "value" f.name ++ "," := by
  simp [toMapField, hj, isEmpty_false_of_ne e hne]

/-! ## Claims -/

/-- C1: for every resolved field the `fromMap` decode entry is chosen by
fixed priority — a present (truthy, i.e. non-empty) custom `fromJson`
expression wins unconditionally (in particular even when `isEnum` is
set), else the enum-lookup-by-name call, else the nested-class `fromMap`
call guarded by a null check on the external key, else the plain map
lookup; the `toMap` encode entry follows the analogous priority.  Both
the `part_000` generator (`fromMapField`, `?`-stripped nested type) and
the `data.command.ts` generator (`fromMapFieldTs`, unstripped nested
type) are covered; their `toMap` generator is the shared `toMapField`. -/
theorem c1_decode_encode_priority (f : Field) :
    (∀ e : String, f.customParsing.fromJson = some e → e ≠ "" →
      fromMapField f = f.name ++ ": " ++
        replaceFirst e "value" ("map[\x27" ++ f.snakeName ++ "\x27]") ++ "," ∧
      fromMapFieldTs f = f.name ++ ": " ++
        replaceFirst e "value" ("map[\x27" ++ f.snakeName ++ "\x27]") ++ ",") ∧
    (truthy f.customParsing.fromJson = false → f.isEnum = true →
      fromMapField f = f.name ++ ": " ++ f.name ++
        "FromString(map[\x27" ++ f.snakeName ++ "\x27])," ∧
      fromMapFieldTs f = f.name ++ ": " ++ f.name ++
        "FromString(map[\x27" ++ f.snakeName ++ "\x27]),") ∧
    (truthy f.customParsing.fromJson = false → f.isEnum = false →
        f.isClass = true →
      fromMapField f = f.name ++ ": map[\x27" ++ f.snakeName ++
        "\x27] != null ? " ++ replaceFirst f.type "?" "" ++
        ".fromMap(map[\x27" ++ f.snakeName ++ "\x27]) : null," ∧
      fromMapFieldTs f = f.name ++ ": map[\x27" ++ f.snakeName ++
        "\x27] != null ? " ++ f.type ++
        ".fromMap(map[\x27" ++ f.snakeName ++ "\x27]) : null,") ∧
    (truthy f.customParsing.fromJson = false → f.isEnum = false →
        f.isClass = false →
      fromMapField f = f.name ++ ": map[\x27" ++ f.snakeName ++ "\x27]," ∧
      fromMapFieldTs f = f.name ++ ": map[\x27" ++ f.snakeName ++ "\x27],") ∧
    (∀ e : String, f.customParsing.toJson = some e → e ≠ "" →
      toMapField f = "\x27" ++ f.snakeName ++ "\x27: " ++
        replaceFirst e "value" f.name ++ ",") ∧
    (truthy f.customParsing.toJson = false → f.isEnum = true →
      toMapField f = "\x27" ++ f.snakeName ++ "\x27: " ++ f.name ++
        "ToString(" ++ f.name ++ "),") ∧
    (truthy f.customParsing.toJson = false → f.isEnum = false →
        f.isClass = true →
      toMapField f = "\x27" ++ f.snakeName ++ "\x27: " ++ f.name ++
        "?.toMap(),") ∧
    (truthy f.customParsing.toJson = false → f.isEnum = false →
        f.isClass = false →
      toMapField f = "\x27" ++ f.snakeName ++ "\x27: " ++ f.name ++ ",") := by
  refine ⟨?_, ?_, ?_, ?_, ?_, ?_, ?_, ?_⟩
  · intro e hj hne
    exact ⟨fromMapField_of_custom f e hj hne, fromMapFieldTs_of_custom f e hj hne⟩
  · intro hc hen
    rw [fromMapField_of_not_truthy f hc, fromMapFieldTs_of_not_truthy f hc]
    constructor <;> simp [fromMapFieldRest, fromMapFieldTsRest, hen]
  · intro hc hen hcl
    rw [fromMapField_of_not_truthy f hc, fromMapFieldTs_of_not_truthy f hc]
    constructor <;> simp [fromMapFieldRest, fromMapFieldTsRest, hen, hcl]
  · intro hc hen hcl
    rw [fromMapField_of_not_truthy f hc, fromMapFieldTs_of_not_truthy f hc]
    constructor <;> simp [fromMapFieldRest, fromMapFieldTsRest, hen, hcl]
  · intro e hj hne
    exact toMapField_of_custom f e hj hne
  · intro hc hen
    rw [toMapField_of_not_truthy f hc]
    simp [toMapFieldRest, hen]
  · intro hc hen hcl
    rw [toMapField_of_not_truthy f hc]
    simp [toMapFieldRest, hen, hcl]
  · intro hc hen hcl
    rw [toMapField_of_not_truthy f hc]
    simp [toMapFieldRest, hen, hcl]

/-- Witness for C1: every branch of the priority chain evaluated at a
concrete field. -/
theorem c1_witness :
    fromMapField fieldCustomEx = "x: " ++
      replaceFirst "f(value, value)" "value" "map[\x27x\x27]" ++ "," ∧
    fromMapField fieldEnumEx = "count: countFromString(map[\x27count\x27])," ∧
    fromMapField fieldClassEx =
      "count: map[\x27count\x27] != null ? Count.fromMap(map[\x27count\x27]) : null," ∧
    fromMapFieldTs fieldClassEx =
      "count: map[\x27count\x27] != null ? Count?.fromMap(map[\x27count\x27]) : null," ∧
    toMapField fieldPlainEx = "\x27x\x27: x," :=
  ⟨((c1_decode_encode_priority fieldCustomEx).1 "f(value, value)" rfl
      (by decide)).1,
   ((c1_decode_encode_priority fieldEnumEx).2.1 rfl rfl).1,
   ((c1_decode_encode_priority fieldClassEx).2.2.1 rfl rfl rfl).1,
   ((c1_decode_encode_priority fieldClassEx).2.2.1 rfl rfl rfl).2,
   (c1_decode_encode_priority fieldPlainEx).2.2.2.2.2.2.2 rfl rfl rfl⟩

/-- C10: when a custom expression template mentions the placeholder
`value` more than once, only the first occurrence is substituted — the
decomposition `e = a ++ "value" ++ b` at the *first* occurrence yields the
emitted expression `a ++ <access> ++ b`, with the tail `b` (which holds
every later `value` occurrence, as witnessed by the `hasSubstr`
hypothesis) copied verbatim. -/
theorem c10_first_occurrence_only (f : Field) :
    (∀ (e : String) (a b : List Char),
      f.customParsing.fromJson = some e → e ≠ "" →
      breakOn "value".data e.data = some (a, b) →
      hasSubstr (String.mk b) "value" = true →
      fromMapField f = f.name ++ ": " ++
        (String.mk a ++ ("map[\x27" ++ f.snakeName ++ "\x27]") ++ String.mk b)
        ++ ",") ∧
    (∀ (e : String) (a b : List Char),
      f.customParsing.toJson = some e → e ≠ "" →
      breakOn "value".data e.data = some (a, b) →
      hasSubstr (String.mk b) "value" = true →
      toMapField f = "\x27" ++ f.snakeName ++ "\x27: " ++
        (String.mk a ++ f.name ++ String.mk b) ++ ",") := by
  constructor
  · intro e a b hj hne hbr _
    rw [fromMapField_of_custom f e hj hne]
    simp [replaceFirst, hbr]
  · intro e a b hj hne hbr _
    rw [toMapField_of_custom f e hj hne]
    simp [replaceFirst, hbr]

/-- Witness for C10: a template mentioning `value` twice, evaluated — the
second occurrence survives as the literal text `value`. -/
theorem c10_witness :
    fromMapField fieldCustomEx = "x: f(map[\x27x\x27], value)," ∧
    toMapField fieldCustomEx = "\x27x\x27: g(x, value)," :=
  ⟨(c10_first_occurrence_only fieldCustomEx).1 "f(value, value)"
      "f(".data ", value)".data rfl (by decide) (by decide) (by decide),
   (c10_first_occurrence_only fieldCustomEx).2 "g(value, value)"
      "g(".data ", value)".data rfl (by decide) (by decide) (by decide)⟩

/-- C3: for a class containing `final Count count; // Type: enum` under
naming style `original`, the emitted decode entry is
`count: countFromString(map['count']),` and the emitted encode entry is
`'count': countToString(count),` — i.e. the enum converters are named
`<fieldName>FromString` / `<fieldName>ToString`. -/
theorem c3_enum_field_expressions :
    (extractFieldsSingle docEnumEx .original).map fromMapFieldTs =
      ["count: countFromString(map[\x27count\x27]),"] ∧
    (extractFieldsSingle docEnumEx .original).map toMapField =
      ["\x27count\x27: countToString(count),"] := by
  constructor <;> decide

/-- Helper: the constructor regex of the constructor-driven revision can
only match at a literal backspace character, so it never matches a
document that contains none. -/
theorem findConstructorParams_of_no_backspace (className doc : String)
    (h : ∀ c ∈ doc.data, c ≠ '\x08') :
    findConstructorParams className doc = none := by
  unfold findConstructorParams
  revert h
  generalize doc.data = l
  intro h
  induction l with
  | nil => rfl
  | cons c rest ih =>
    have hc : c ≠ '\x08' := h c (List.mem_cons_self c rest)
    have hrest : ∀ x ∈ rest, x ≠ '\x08' :=
      fun x hx => h x (List.mem_cons_of_mem c hx)
    have hstep : ctorParamStep className (c :: rest) = none := by
      simp [ctorParamStep, hc]
    simp only [scanFirstAux, hstep]
    exact ih hrest

/-- C2 (evidence of the code bug): the constructor-parameter regex is
built inside a JavaScript template literal, so its `\b` is a literal
backspace (U+0008) and its `\s`/`\(`/`\)` lose their backslashes; the
resulting regex can never match ordinary source text.  On a class whose
text plainly contains the parameter list `(\x7brequired this.name\x7d)`,
the match is `none` and the nullable flag of `name` keeps its `?`-marker
value `true`, although the claimed constructor-derived reading (the
`required this.name` marker is present) demands `false`. -/
theorem c2_constructor_regex_dead :
    hasSubstr docCtorEx "required this.name" = true ∧
    (∀ c ∈ docCtorEx.data, c ≠ '\x08') ∧
    findConstructorParams "User" docCtorEx = none ∧
    (resolveFields2 "User" docCtorEx .original).map
      (fun f => (f.name, f.nullable)) = [("name", true)] :=
  ⟨by decide, by decide, by decide, by decide⟩

/-- C4 counterexample: dismissing the *suffix* input box (the prompt
resolves to `undefined`) does not terminate the operation — both
orchestrators continue with the empty suffix and still produce an edit
with no error. -/
theorem c4_counterexample :
    (runSingle docOneClassEx none (some NamingStyle.original)).errors = [] ∧
    (runSingle docOneClassEx none (some NamingStyle.original)).edits.length
      = 1 ∧
    (runMulti docOneClassEx none (some NamingStyle.original)).errors = [] ∧
    (runMulti docOneClassEx none (some NamingStyle.original)).edits.length
      = 1 :=
  ⟨rfl, rfl, rfl, rfl⟩

/-- C4 (amended): only the naming-style prompt aborts the run — a
dismissed quick pick terminates immediately with an error and no edits;
a dismissed suffix input box instead behaves exactly like an entered
empty suffix, and the run continues. -/
theorem c4_amended (doc : String) (sp : Option String) (style : NamingStyle) :
    runSingle doc sp none = ⟨["No naming style selected."], []⟩ ∧
    runMulti doc sp none = ⟨["No naming style selected."], []⟩ ∧
    runSingle doc none (some style) = runSingle doc (some "") (some style) ∧
    runMulti doc none (some style) = runMulti doc (some "") (some style) :=
  ⟨rfl, rfl, rfl, rfl⟩

/-- Witness for C4 (amended): the amended behavior evaluated at a
concrete document and suffix. -/
theorem c4_amended_witness :
    runSingle docOneClassEx (some "DTO") none =
      ⟨["No naming style selected."], []⟩ ∧
    runMulti docOneClassEx (some "DTO") none =
      ⟨["No naming style selected."], []⟩ ∧
    runSingle docOneClassEx none (some NamingStyle.original) =
      runSingle docOneClassEx (some "") (some NamingStyle.original) ∧
    runMulti docOneClassEx none (some NamingStyle.original) =
      runMulti docOneClassEx (some "") (some NamingStyle.original) :=
  c4_amended docOneClassEx (some "DTO") NamingStyle.original

/-- C5: when the class locator finds nothing — `findClassName` for the
single-class revision, `scanClasses` for the multi-class revision — the
run surfaces exactly the reportable error of that revision, produces zero
edits, and applying its (empty) edit batch leaves the document
unchanged. -/
theorem c5_no_class_aborts (doc : String) (sp : Option String)
    (style : NamingStyle) :
    (findClassName doc = none →
      runSingle doc sp (some style) = ⟨["No valid Dart class found."], []⟩ ∧
      applyEdits doc (runSingle doc sp (some style)).edits = doc) ∧
    (scanClasses doc = [] →
      runMulti doc sp (some style) =
        ⟨["No Dart class found to update."], []⟩ ∧
      applyEdits doc (runMulti doc sp (some style)).edits = doc) := by
  constructor
  · intro h
    have h1 : runSingle doc sp (some style) =
        ⟨["No valid Dart class found."], []⟩ := by
      simp [runSingle, h]
    exact ⟨h1, by rw [h1]; rfl⟩
  · intro h
    have h1 : runMulti doc sp (some style) =
        ⟨["No Dart class found to update."], []⟩ := by
      simp [runMulti, h]
    exact ⟨h1, by rw [h1]; rfl⟩

/-- Witness for C5: a document with no class declaration at all. -/
theorem c5_witness :
    runSingle "hello world" (some "DTO") (some NamingStyle.original) =
      ⟨["No valid Dart class found."], []⟩ ∧
    runMulti "hello world" (some "DTO") (some NamingStyle.original) =
      ⟨["No Dart class found to update."], []⟩ :=
  ⟨((c5_no_class_aborts "hello world" (some "DTO")
      NamingStyle.original).1 (by decide)).1,
   ((c5_no_class_aborts "hello world" (some "DTO")
      NamingStyle.original).2 (by decide)).1⟩

/-- Helper: every field produced by the line-scanning extractor has its
class flag determined by its enum flag and the built-in-ness of its
`?`-stripped declared type. -/
theorem extractFieldsLS_isClass (body : String) (style : NamingStyle)
    (f : Field) (hf : f ∈ extractFieldsLS body style) :
    f.isClass = (if f.isEnum then false
      else !(dartBuiltInTypes.contains (replaceFirst f.type "?" ""))) := by
  simp only [extractFieldsLS] at hf
  obtain ⟨p, hp, hsome⟩ := List.mem_filterMap.mp hf
  unfold fieldFromLine at hsome
  cases hlm : lineFieldMatch (jsTrim p.2) with
  | none => rw [hlm] at hsome; exact Option.noConfusion hsome
  | some tn =>
    obtain ⟨ty, nm⟩ := tn
    rw [hlm] at hsome
    simp only [Option.some.injEq] at hsome
    subst hsome
    rfl

/-- C9 counterexample: in the line-scanning extractor an enum directive
overrides even a built-in declared type — the built-in-typed field
`final int count;` beneath `// Type: enum` comes out with
`isEnum = true`, where the claim demands both flags false. -/
theorem c9_counterexample :
    dartBuiltInTypes.contains "int" = true ∧
    (extractFieldsLS bodyEnumIntEx .original).map
      (fun f => (f.type, f.isEnum, f.isClass)) = [("int", true, false)] :=
  ⟨by decide, by decide⟩

/-- C9 (amended): `isEnum` and `isClass` are never both true in either
extractor, and a non-built-in type yields a nested-class field unless an
enum directive overrides it; but the built-in short-circuit (`both flags
false regardless of any enum directive`) holds only for the
trailing-comment variant (`determineFieldType`) — in the line-scanning
variant a built-in type merely forces `isClass = false`, while an enum
directive may still set `isEnum = true`. -/
theorem c9_amended :
    (∀ ty nm cc : String,
      ¬((determineFieldType ty nm cc).1 = true ∧
        (determineFieldType ty nm cc).2.1 = true)) ∧
    (∀ ty nm cc : String,
      dartBuiltInTypes.contains (replaceFirst ty "?" "") = true →
      (determineFieldType ty nm cc).1 = false ∧
      (determineFieldType ty nm cc).2.1 = false) ∧
    (∀ ty nm cc : String,
      dartBuiltInTypes.contains (replaceFirst ty "?" "") = false →
      (determineFieldType ty nm cc).2.1 = !(determineFieldType ty nm cc).1) ∧
    (∀ (body : String) (style : NamingStyle) (f : Field),
      f ∈ extractFieldsLS body style →
      ¬(f.isEnum = true ∧ f.isClass = true)) ∧
    (∀ (body : String) (style : NamingStyle) (f : Field),
      f ∈ extractFieldsLS body style →
      dartBuiltInTypes.contains (replaceFirst f.type "?" "") = true →
      f.isClass = false) ∧
    (∀ (body : String) (style : NamingStyle) (f : Field),
      f ∈ extractFieldsLS body style →
      dartBuiltInTypes.contains (replaceFirst f.type "?" "") = false →
      f.isEnum = false → f.isClass = true) := by
  refine ⟨?_, ?_, ?_, ?_, ?_, ?_⟩
  · intro ty nm cc
    by_cases hm : replaceFirst ty "?" "" ∈ dartBuiltInTypes
    · simp [determineFieldType, hm]
    · cases he : (directivesOf nm cc).1 with
      | true => simp [determineFieldType, hm, he]
      | false => simp [determineFieldType, hm, he]
  · intro ty nm cc h
    have hm : replaceFirst ty "?" "" ∈ dartBuiltInTypes := by simpa using h
    constructor <;> simp [determineFieldType, hm]
  · intro ty nm cc h
    have hm : replaceFirst ty "?" "" ∉ dartBuiltInTypes := by simpa using h
    simp [determineFieldType, hm]
  · intro body style f hf h
    have := extractFieldsLS_isClass body style f hf
    rw [h.1] at this
    simp at this
    exact absurd h.2 (by simp [this])
  · intro body style f hf hb
    have hm : replaceFirst f.type "?" "" ∈ dartBuiltInTypes := by
      simpa using hb
    have := extractFieldsLS_isClass body style f hf
    cases he : f.isEnum with
    | true => rw [he] at this; simpa using this
    | false => rw [he] at this; simpa [hm] using this
  · intro body style f hf hb he
    have hm : replaceFirst f.type "?" "" ∉ dartBuiltInTypes := by
      simpa using hb
    have := extractFieldsLS_isClass body style f hf
    rw [he] at this
    simpa [hm] using this

/-- Witness for C9 (amended): every conjunct applied at concrete
inputs — the enum-flagged built-in field of `bodyEnumIntEx` and the
nested-class field of a directive-free body. -/
theorem c9_amended_witness :
    ¬((determineFieldType "Count" "c" "").1 = true ∧
      (determineFieldType "Count" "c" "").2.1 = true) ∧
    ((determineFieldType "int?" "c" "c; \x2f\x2f Type: enum").1 = false ∧
     (determineFieldType "int?" "c" "c; \x2f\x2f Type: enum").2.1 = false) ∧
    (determineFieldType "Count" "c" "").2.1 =
      !(determineFieldType "Count" "c" "").1 ∧
    ¬((⟨"int", "count", "count", false, true, false, ⟨none, none⟩⟩ :
        Field).isEnum = true ∧
      (⟨"int", "count", "count", false, true, false, ⟨none, none⟩⟩ :
        Field).isClass = true) ∧
    (⟨"int", "count", "count", false, true, false, ⟨none, none⟩⟩ :
      Field).isClass = false ∧
    (⟨"Count", "x", "x", false, false, true, ⟨none, none⟩⟩ :
      Field).isClass = true :=
  ⟨c9_amended.1 "Count" "c" "",
   c9_amended.2.1 "int?" "c" "c; \x2f\x2f Type: enum" (by decide),
   c9_amended.2.2.1 "Count" "c" "" (by decide),
   c9_amended.2.2.2.1 bodyEnumIntEx .original
     ⟨"int", "count", "count", false, true, false, ⟨none, none⟩⟩
     (by decide),
   c9_amended.2.2.2.2.1 bodyEnumIntEx .original
     ⟨"int", "count", "count", false, true, false, ⟨none, none⟩⟩
     (by decide) (by decide),
   c9_amended.2.2.2.2.2 "\n  final Count x;\n" .original
     ⟨"Count", "x", "x", false, false, true, ⟨none, none⟩⟩
     (by decide) (by decide) rfl⟩

/-- Helper: with no underscore occurrence the camel-case pass is the
identity. -/
theorem camelRep_of_no_underscore (l : List Char) (h : '_' ∉ l) :
    camelRep l = l := by
  induction l with
  | nil => rfl
  | cons a rest ih =>
    have ha : a ≠ '_' := fun e => h (e ▸ List.mem_cons_self a rest)
    have h2 : '_' ∉ rest := fun hm => h (List.mem_cons_of_mem a hm)
    cases rest with
    | nil => rfl
    | cons c rest2 =>
      show camelRep (a :: c :: rest2) = a :: c :: rest2
      rw [camelRep, if_neg ha, ih h2]

/-- Helper: with no uppercase character the boundary-separator pass is
the identity. -/
theorem snakeRep_of_no_upper (sep : Char) (l : List Char)
    (h : ∀ c ∈ l, c.isUpper = false) : snakeRep sep l = l := by
  induction l with
  | nil => rfl
  | cons a rest ih =>
    have h2 : ∀ c ∈ rest, c.isUpper = false :=
      fun c hc => h c (List.mem_cons_of_mem a hc)
    cases rest with
    | nil => rfl
    | cons b rest2 =>
      have hb : b.isUpper = false := h2 b (List.mem_cons_self b rest2)
      show snakeRep sep (a :: b :: rest2) = a :: b :: rest2
      rw [snakeRep, hb]
      simp only [Bool.and_false, Bool.false_eq_true, if_false]
      rw [ih h2]

/-- Helper: lowering characters already equal to their lowercase form is
the identity. -/
theorem map_toLower_of_lower (l : List Char) (h : ∀ c ∈ l, c.toLower = c) :
    l.map Char.toLower = l := by
  induction l with
  | nil => rfl
  | cons a rest ih =>
    rw [List.map_cons, h a (List.mem_cons_self a rest),
      ih (fun c hc => h c (List.mem_cons_of_mem a hc))]

/-- Helper: with no underscore occurrence the `_\w` pass is the
identity. -/
theorem pascalTail_of_no_underscore (l : List Char) (h : '_' ∉ l) :
    pascalTail l = l := by
  induction l with
  | nil => rfl
  | cons a rest ih =>
    have ha : a ≠ '_' := fun e => h (e ▸ List.mem_cons_self a rest)
    have h2 : '_' ∉ rest := fun hm => h (List.mem_cons_of_mem a hm)
    cases rest with
    | nil => rfl
    | cons c rest2 =>
      show pascalTail (a :: c :: rest2) = a :: c :: rest2
      rw [pascalTail, if_neg ha, ih h2]

/-- Helper: the Pascal-case converter is the identity on
underscore-free inputs whose first character is already uppercase. -/
theorem pascalConvList_id (l : List Char) (h : '_' ∉ l)
    (hh : ∀ c, l.head? = some c → c.toUpper = c) :
    pascalConvList l = l := by
  cases l with
  | nil => rfl
  | cons c rest =>
    have hc : c.toUpper = c := hh c rfl
    have hcu : c ≠ '_' := fun e => h (e ▸ List.mem_cons_self c rest)
    have h2 : '_' ∉ rest := fun hm => h (List.mem_cons_of_mem c hm)
    rw [pascalConvList]
    by_cases hw : isWordChar c
    · rw [if_pos hw, if_neg hcu, hc, pascalTail_of_no_underscore rest h2]
    · rw [if_neg hw, pascalTail_of_no_underscore rest h2]

/-- C8: each case converter is the identity on names already in its
style's canonical form — no underscore for camelCase; no uppercase
character (every character fixed by lowercasing) for snake_case and
kebab-case; no underscore and an uppercase-stable first character for
PascalCase; and `original` is the identity everywhere. -/
theorem c8_canonical_idempotence :
    (∀ s : String, '_' ∉ s.data → convertCase .camelCase s = s) ∧
    (∀ s : String, (∀ c ∈ s.data, c.isUpper = false ∧ c.toLower = c) →
      convertCase .snake_case s = s) ∧
    (∀ s : String, '_' ∉ s.data →
      (∀ c, s.data.head? = some c → c.toUpper = c) →
      convertCase .pascalCase s = s) ∧
    (∀ s : String, (∀ c ∈ s.data, c.isUpper = false ∧ c.toLower = c) →
      convertCase .kebabCase s = s) ∧
    (∀ s : String, convertCase .original s = s) := by
  refine ⟨?_, ?_, ?_, ?_, fun s => rfl⟩
  · intro s h
    show String.mk (camelRep s.data) = s
    rw [camelRep_of_no_underscore s.data h, string_mk_data]
  · intro s h
    show String.mk ((snakeRep '_' s.data).map Char.toLower) = s
    rw [snakeRep_of_no_upper '_' s.data (fun c hc => (h c hc).1),
      map_toLower_of_lower s.data (fun c hc => (h c hc).2), string_mk_data]
  · intro s h hh
    show String.mk (pascalConvList s.data) = s
    rw [pascalConvList_id s.data h hh, string_mk_data]
  · intro s h
    show String.mk ((snakeRep '-' s.data).map Char.toLower) = s
    rw [snakeRep_of_no_upper '-' s.data (fun c hc => (h c hc).1),
      map_toLower_of_lower s.data (fun c hc => (h c hc).2), string_mk_data]

/-- Witness for C8: one canonical name per naming style. -/
theorem c8_witness :
    convertCase .camelCase "userId" = "userId" ∧
    convertCase .snake_case "user_id" = "user_id" ∧
    convertCase .pascalCase "UserId" = "UserId" ∧
    convertCase .kebabCase "user-id" = "user-id" ∧
    convertCase .original "x_Y z" = "x_Y z" :=
  ⟨c8_canonical_idempotence.1 "userId" (by decide),
   c8_canonical_idempotence.2.1 "user_id" (by decide),
   c8_canonical_idempotence.2.2.1 "UserId" (by decide) (by decide),
   c8_canonical_idempotence.2.2.2.1 "user-id" (by decide),
   c8_canonical_idempotence.2.2.2.2 "x_Y z"⟩

/-- C6: in multi-class mode, when the locator finds exactly two classes
and the first yields at least one recognized field while the second
yields none, the run produces exactly one edit (covering the first
class's match, with its generated text) and exactly one error (naming
the second class) — the second class's failure does not prevent or alter
the first class's edit, and the first class's success does not suppress
the second class's error. -/
theorem c6_independent_classes (doc : String) (sp : Option String)
    (style : NamingStyle) (a b : ClassMatch)
    (hscan : scanClasses doc = [a, b])
    (ha : extractFieldsLS a.body style ≠ [])
    (hb : extractFieldsLS b.body style = []) :
    (runMulti doc sp (some style)).errors =
      ["No valid fields found in class " ++ b.name ++ "."] ∧
    (runMulti doc sp (some style)).edits =
      [⟨a.index, a.index + a.len,
        jsTrim (updatedClassText (a.name ++ ((sp.map jsTrim).getD ""))
          (extractFieldsLS a.body style))⟩] := by
  have hae : (extractFieldsLS a.body style).isEmpty = false := by
    cases hfa : extractFieldsLS a.body style with
    | nil => exact absurd hfa ha
    | cons x xs => rfl
  constructor <;> simp [runMulti, hscan, processClass, hb, hae]

/-- Witness for C6: the two-class document evaluated. -/
theorem c6_witness :
    (runMulti docTwoClassEx (some "DTO")
      (some NamingStyle.original)).errors =
      ["No valid fields found in class B."] ∧
    (runMulti docTwoClassEx (some "DTO")
      (some NamingStyle.original)).edits =
      [⟨0, 26,
        jsTrim (updatedClassText
          ("A" ++ (((some "DTO" : Option String)).map jsTrim).getD "")
          (extractFieldsLS "\n  final int x;\n" NamingStyle.original))⟩] :=
  c6_independent_classes docTwoClassEx (some "DTO") NamingStyle.original
    ⟨0, "A", "\n  final int x;\n", 26⟩ ⟨27, "B", "\n  int y;\n", 20⟩
    (by decide) (by decide) (by decide)

/-- Helper: a successful literal match decomposes the input. -/
theorem dropLit_spec (p l r : List Char) (h : dropLit p l = some r) :
    l = p ++ r := by
  induction p generalizing l with
  | nil =>
    injection h with h1
  | cons pc ps ih =>
    cases l with
    | nil => exact Option.noConfusion h
    | cons c cs =>
      unfold dropLit at h
      by_cases hpc : pc = c
      · rw [if_pos hpc] at h
        rw [List.cons_append, ← hpc, ih cs h]
      · rw [if_neg hpc] at h
        exact Option.noConfusion h

/-- Helper: structure of a successful `classRegex` match at a fixed
position — the input decomposes as `class`, mandatory whitespace, a
non-empty word run (the name), optional whitespace, `{`, the body (free
of `}`), `}`, and an arbitrary remainder; the match length counts
everything up to and including that first `}`. -/
theorem matchClassAt_spec (l : List Char) (nm body : String) (k : Nat)
    (h : matchClassAt l = some (nm, body, k)) :
    ∃ ws1 ws2 rest : List Char,
      l = "class".data ++ ws1 ++ nm.data ++ ws2 ++
        '\x7b' :: (body.data ++ '\x7d' :: rest) ∧
      ws1 ≠ [] ∧ (∀ c ∈ ws1, isJsSpace c = true) ∧
      nm.data ≠ [] ∧ (∀ c ∈ nm.data, isWordChar c = true) ∧
      (∀ c ∈ ws2, isJsSpace c = true) ∧
      (∀ c ∈ body.data, c ≠ '\x7d') ∧
      k = 5 + ws1.length + nm.data.length + ws2.length + 2 +
        body.data.length := by
  unfold matchClassAt at h
  cases hdl : dropLit "class".data l with
  | none => rw [hdl] at h; exact Option.noConfusion h
  | some r1 =>
    rw [hdl] at h
    simp only [] at h
    by_cases h1 : (r1.takeWhile isJsSpace).isEmpty = true
    · rw [if_pos h1] at h; exact Option.noConfusion h
    rw [if_neg h1] at h
    by_cases h2 :
        ((r1.dropWhile isJsSpace).takeWhile isWordChar).isEmpty = true
    · rw [if_pos h2] at h; exact Option.noConfusion h
    rw [if_neg h2] at h
    cases hr4 : ((r1.dropWhile isJsSpace).dropWhile isWordChar).dropWhile
        isJsSpace with
    | nil => rw [hr4] at h; exact Option.noConfusion h
    | cons c4 r6 =>
      rw [hr4] at h
      dsimp only at h
      by_cases hc4 : c4 = '\x7b'
      · rw [if_pos hc4] at h
        subst hc4
        cases hdw : r6.dropWhile (· ≠ '\x7d') with
        | nil => rw [hdw] at h; exact Option.noConfusion h
        | cons d rest6 =>
          rw [hdw] at h
          dsimp only at h
          by_cases hd : d = '\x7d'
          · rw [if_pos hd] at h
            subst hd
            injection h with h'
            simp only [Prod.mk.injEq] at h'
            obtain ⟨hnm, hbody, hk⟩ := h'
            subst hnm
            subst hbody
            subst hk
            refine ⟨r1.takeWhile isJsSpace,
              ((r1.dropWhile isJsSpace).dropWhile isWordChar).takeWhile
                isJsSpace, rest6, ?_, ?_, ?_, ?_, ?_, ?_, ?_, ?_⟩
            · show l = "class".data ++ r1.takeWhile isJsSpace ++
                (r1.dropWhile isJsSpace).takeWhile isWordChar ++
                ((r1.dropWhile isJsSpace).dropWhile isWordChar).takeWhile
                  isJsSpace ++
                '\x7b' :: (r6.takeWhile (· ≠ '\x7d') ++ '\x7d' :: rest6)
              have e5 : r6.takeWhile (· ≠ '\x7d') ++ '\x7d' :: rest6
                  = r6 := by
                conv_rhs => rw [← List.takeWhile_append_dropWhile
                  (· ≠ '\x7d') r6]
                rw [hdw]
              have e4 : ((r1.dropWhile isJsSpace).dropWhile
                    isWordChar).takeWhile isJsSpace ++ '\x7b' :: r6
                  = (r1.dropWhile isJsSpace).dropWhile isWordChar := by
                conv_rhs => rw [← List.takeWhile_append_dropWhile isJsSpace
                  ((r1.dropWhile isJsSpace).dropWhile isWordChar)]
                rw [hr4]
              have e3 : (r1.dropWhile isJsSpace).takeWhile isWordChar ++
                  (r1.dropWhile isJsSpace).dropWhile isWordChar
                  = r1.dropWhile isJsSpace :=
                List.takeWhile_append_dropWhile isWordChar
                  (r1.dropWhile isJsSpace)
              have e2 : r1.takeWhile isJsSpace ++ r1.dropWhile isJsSpace
                  = r1 :=
                List.takeWhile_append_dropWhile isJsSpace r1
              simp only [List.append_assoc, List.cons_append]
              rw [e5, e4, e3, e2]
              exact dropLit_spec _ _ _ hdl
            · intro e
              rw [e] at h1
              exact h1 rfl
            · intro c hc
              exact List.mem_takeWhile_imp hc
            · show (r1.dropWhile isJsSpace).takeWhile isWordChar ≠ []
              intro e
              rw [e] at h2
              exact h2 rfl
            · intro c hc
              exact List.mem_takeWhile_imp hc
            · intro c hc
              exact List.mem_takeWhile_imp hc
            · intro c hc
              have := List.mem_takeWhile_imp hc
              exact of_decide_eq_true this
            · rfl
          · rw [if_neg hd] at h
            exact Option.noConfusion h
      · rw [if_neg hc4] at h
        exact Option.noConfusion h

/-- Helper: every element of the class-scanning loop's output arises from
a successful `classRegex` match at the offset it records. -/
theorem mem_scanClassesGo (fuel : Nat) (l : List Char) (i : Nat)
    (u : ClassMatch) (hu : u ∈ scanClassesGo fuel l i) :
    ∃ j, u.index = i + j ∧
      matchClassAt (l.drop j) = some (u.name, u.body, u.len) := by
  induction fuel generalizing l i with
  | zero => exact absurd hu (List.not_mem_nil u)
  | succ fuel ih =>
    cases l with
    | nil => exact absurd hu (List.not_mem_nil u)
    | cons c rest =>
      rw [scanClassesGo] at hu
      cases hm : matchClassAt (c :: rest) with
      | none =>
        rw [hm] at hu
        obtain ⟨j, hj, hmm⟩ := ih rest (i + 1) hu
        refine ⟨j + 1, by omega, ?_⟩
        rw [← hmm]
        congr 1
      | some t =>
        obtain ⟨nm, body, k⟩ := t
        rw [hm] at hu
        rcases List.mem_cons.mp hu with h1 | h2
        · subst h1
          exact ⟨0, by simp, by rw [List.drop_zero]; exact hm⟩
        · obtain ⟨j, hj, hmm⟩ := ih (rest.drop (k - 1)) (i + k) h2
          have hk : 1 ≤ k := by
            obtain ⟨ws1, ws2, r, hspec⟩ := matchClassAt_spec _ _ _ _ hm
            have := hspec.2.2.2.2.2.2.2
            omega
          refine ⟨k + j, by omega, ?_⟩
          rw [← hmm]
          congr 1
          rw [List.drop_drop]
          rw [show k + j = ((k - 1) + j) + 1 by omega]
          exact List.drop_succ_cons

/-- C7: in multi-class mode every located `ClassMatch`'s body is the span
from the opening brace after `class <Identifier>` up to (excluding) the
first subsequent closing brace of the text: at the recorded offset the
document decomposes as `class`, whitespace, the name, optional
whitespace, `\x7b`, the body — which contains no `\x7d` at all, so an
inner `\x7b` is not balanced and the body is cut at the first `\x7d` —
followed by that `\x7d` and the remainder. -/
theorem c7_lazy_body_first_brace (doc : String) (u : ClassMatch)
    (hu : u ∈ scanClasses doc) :
    ∃ ws1 ws2 rest : List Char,
      doc.data.drop u.index = "class".data ++ ws1 ++ u.name.data ++ ws2 ++
        '\x7b' :: (u.body.data ++ '\x7d' :: rest) ∧
      ws1 ≠ [] ∧ (∀ c ∈ ws1, isJsSpace c = true) ∧
      u.name.data ≠ [] ∧ (∀ c ∈ u.name.data, isWordChar c = true) ∧
      (∀ c ∈ ws2, isJsSpace c = true) ∧
      (∀ c ∈ u.body.data, c ≠ '\x7d') ∧
      u.len = 5 + ws1.length + u.name.data.length + ws2.length + 2 +
        u.body.data.length := by
  obtain ⟨j, hj, hm⟩ := mem_scanClassesGo _ _ _ _ hu
  have hj0 : u.index = j := by omega
  rw [hj0]
  exact matchClassAt_spec _ _ _ _ hm

/-- Witness for C7: a class whose body contains an inner opening brace is
cut short at the first closing brace (`body = " int \x7b "`). -/
theorem c7_witness :
    ∃ ws1 ws2 rest : List Char,
      docNestedBraceEx.data.drop 0 =
        "class".data ++ ws1 ++ ("A" : String).data ++ ws2 ++
          '\x7b' :: ((" int \x7b " : String).data ++ '\x7d' :: rest) ∧
      ws1 ≠ [] ∧ (∀ c ∈ ws1, isJsSpace c = true) ∧
      ("A" : String).data ≠ [] ∧
      (∀ c ∈ ("A" : String).data, isWordChar c = true) ∧
      (∀ c ∈ ws2, isJsSpace c = true) ∧
      (∀ c ∈ (" int \x7b " : String).data, c ≠ '\x7d') ∧
      (17 : Nat) = 5 + ws1.length + ("A" : String).data.length +
        ws2.length + 2 + (" int \x7b " : String).data.length :=
  c7_lazy_body_first_brace docNestedBraceEx ⟨0, "A", " int \x7b ", 17⟩
    (by decide)

end FlutterPlus
